import Mathlib

/-!
Verification development for the Time_Tracker repository.

The repository ships two storage variants:
`time_tracker_sqlite.py` (namespace `Storage` below) and
`backups/time_tracker_old.py` (namespace `OldStorage` below).
Both keep tasks and entries in two SQLite tables; here the tables are
modelled as Lean lists, an `INSERT` appends a row carrying the next
rowid, `UPDATE ... WHERE id=?` maps over the rows, and
`DELETE ... WHERE id=?` filters them.  ISO-8601 timestamps are kept as
the strings the code stores; `tsSeconds` mirrors what
`datetime.fromisoformat` followed by `.total_seconds()` subtraction
computes on second-precision timestamps (proleptic Gregorian calendar,
civil-days arithmetic).  `REAL` durations are modelled as rationals and
Python's `round(x, n)` as rounding to `n` decimal places.
-/

/-- Python's `s[:n]` on a string, written on the character list. -/
def strTake (s : String) (n : Nat) : String := ⟨s.data.take n⟩

/-- Python's `str.strip()`: drops whitespace from both ends. -/
def strTrim (s : String) : String :=
  ⟨((s.data.dropWhile Char.isWhitespace).reverse.dropWhile Char.isWhitespace).reverse⟩

/-- The numeric value of a non-empty all-digit character list. -/
def decDigits (cs : List Char) : Option Nat :=
  if cs ≠ [] ∧ cs.all (fun c => c.isDigit) then
    some (cs.foldl (fun n c => n * 10 + (c.toNat - 48)) 0)
  else none

/-- Lexicographic code-point comparison of strings, the text ordering
SQLite's `ORDER BY` and pandas' name sort use. -/
def strLtB : List Char → List Char → Bool
  | _, [] => false
  | [], _ :: _ => true
  | a :: as, b :: bs => if a = b then strLtB as bs else decide (a.toNat < b.toNat)

/-- Strict string comparison. -/
def strLt (a b : String) : Bool := strLtB a.data b.data

/-- Non-strict string comparison. -/
def strLe (a b : String) : Bool := strLt a b || a == b

/-- Reads the decimal field of length `len` starting at offset `off`
of an ISO-8601 timestamp string (0 when absent). -/
def parseField (s : String) (off len : Nat) : Nat :=
  (decDigits ((s.data.drop off).take len)).getD 0

/-- Days since 1970-01-01 of a civil date, the standard civil-calendar
conversion used by `datetime` date arithmetic. -/
def daysFromCivil (y m d : Int) : Int :=
  let y2 : Int := if m ≤ 2 then y - 1 else y
  let era : Int := (if 0 ≤ y2 then y2 else y2 - 399) / 400
  let yoe : Int := y2 - era * 400
  let mp : Int := (m + 9) % 12
  let doy : Int := (153 * mp + 2) / 5 + d - 1
  let doe : Int := yoe * 365 + yoe / 4 - yoe / 100 + doy
  era * 146097 + doe - 719468

/-- Seconds since the epoch of an ISO-8601 timestamp string
`YYYY-MM-DDTHH:MM:SS`, as `datetime.fromisoformat` reads it. -/
def tsSeconds (s : String) : Int :=
  daysFromCivil (parseField s 0 4) (parseField s 5 2) (parseField s 8 2) * 86400
    + parseField s 11 2 * 3600 + parseField s 14 2 * 60 + parseField s 17 2

/-- Hours between two timestamps: `(end - start).total_seconds() / 3600.0`. -/
def durationHours (startS endS : String) : ℚ :=
  mkRat (tsSeconds endS - tsSeconds startS) 3600

/-- Rounds a rational to the nearest integer (halves up):
`⌊q + 1/2⌋`, written on the numerator and denominator directly. -/
def ratRound (q : ℚ) : Int := Int.fdiv (2 * q.num + q.den) (2 * q.den)

/-- Python's `round(x, n)` modelled on rationals: round to `n` decimal
places. -/
def roundTo (n : Nat) (q : ℚ) : ℚ :=
  mkRat (ratRound (mkRat (q.num * 10 ^ n) q.den)) (10 ^ n)

/-- Zero-pads a numeral to two digits, as `date.isoformat` prints
months and days. -/
def pad2 (n : Nat) : String :=
  if n < 10 then "0" ++ toString n else toString n

/-- The `YYYY-MM-DD` text of the date fields of a timestamp string,
as `datetime.fromisoformat(s).date().isoformat()` renders it. -/
def dateOfTs (s : String) : String :=
  toString (parseField s 0 4) ++ "-" ++ pad2 (parseField s 5 2) ++ "-" ++ pad2 (parseField s 8 2)

namespace Storage

/-- A row of the `tasks` table of `time_tracker_sqlite.py`. -/
structure Task where
  id : Nat
  name : String
  category : String
  w : Bool
  color : Option String
deriving DecidableEq

/-- A row of the `entries` table of `time_tracker_sqlite.py`:
`end_ts` is `NULL` while the entry is open, `duration_h` defaults
to `0`. -/
structure Entry where
  id : Nat
  task_id : Nat
  start_ts : String
  end_ts : Option String
  duration_h : ℚ
  note : String
  date_key : String
deriving DecidableEq

/-- The database state: the two tables plus the next rowid each table
would assign. -/
structure DB where
  tasks : List Task
  entries : List Entry
  nextTaskId : Nat
  nextEntryId : Nat
deriving DecidableEq

/-- A freshly created database. -/
def emptyDB : DB := ⟨[], [], 1, 1⟩

/-- `Storage.add_task`: inserts a trimmed name; on the `UNIQUE(name)`
violation falls back to returning the existing task's id. -/
def add_task (db : DB) (name category : String) (w : Bool) (color : Option String) :
    Nat × DB :=
  match db.tasks.find? (fun t => t.name == strTrim name) with
  | some t => (t.id, db)
  | none =>
      (db.nextTaskId,
        { db with
            tasks := db.tasks ++ [⟨db.nextTaskId, strTrim name, category, w, color⟩],
            nextTaskId := db.nextTaskId + 1 })

/-- A live sqlite connection: the database contents plus whether
`PRAGMA foreign_keys = ON` is in effect on this connection (SQLite
keeps foreign keys off by default, per connection). -/
structure Conn where
  db : DB
  fk_on : Bool
deriving DecidableEq

/-- `Storage._ensure_db` on a missing file: creates the database and
runs `SCHEMA`, whose `PRAGMA foreign_keys = ON` line enables
enforcement on this connection. -/
def ensure_db_fresh : Conn := ⟨emptyDB, true⟩

/-- `Storage._ensure_db` on a pre-existing file: connects without
running `SCHEMA`, so `PRAGMA foreign_keys` keeps its default `OFF`. -/
def ensure_db_existing (db : DB) : Conn := ⟨db, false⟩

/-- `Storage.backup`: copies the database file, then closes and
reopens the connection with a plain `sqlite3.connect`, which loses the
pragma. -/
def backup (c : Conn) : Conn := ⟨c.db, false⟩

/-- `Storage.remove_task`: `DELETE FROM tasks WHERE id=?`. The
schema's `ON DELETE CASCADE` deletes the task's entries with it only
when the connection has foreign keys enabled; otherwise the delete
touches the `tasks` table alone and the entries stay orphaned. -/
def remove_task (c : Conn) (task_id : Nat) : Conn :=
  ⟨{ c.db with
      tasks := c.db.tasks.filter (fun t => t.id != task_id),
      entries :=
        if c.fk_on then c.db.entries.filter (fun e => e.task_id != task_id)
        else c.db.entries },
    c.fk_on⟩

/-- `Storage.start_entry`: inserts an open entry with
`date_key = start_ts[:10]`; `end_ts` stays `NULL` and `duration_h`
takes the schema default `0`. -/
def start_entry (db : DB) (task_id : Nat) (start_ts : String) : Nat × DB :=
  let date_key := strTake start_ts 10
  (db.nextEntryId,
    { db with
        entries := db.entries ++
          [⟨db.nextEntryId, task_id, start_ts, none, 0, "", date_key⟩],
        nextEntryId := db.nextEntryId + 1 })

/-- `Storage.stop_entry`: looks the entry up by id (`False` when
absent), then unconditionally writes `end_ts` and
`round(duration, 4)`. -/
def stop_entry (db : DB) (entry_id : Nat) (end_ts : String) : Bool × DB :=
  match db.entries.find? (fun e => e.id == entry_id) with
  | none => (false, db)
  | some e =>
      let dur := roundTo 4 (durationHours e.start_ts end_ts)
      (true,
        { db with
            entries := db.entries.map (fun e2 =>
              if e2.id == entry_id then
                { e2 with end_ts := some end_ts, duration_h := dur }
              else e2) })

/-- `Storage.update_entry`: recomputes `date_key = start_ts[:10]` and
the duration (`0` when no end), then overwrites the row; no
validation of the timestamps' order is performed. -/
def update_entry (db : DB) (entry_id : Nat) (start_ts : String) (end_ts : Option String) :
    DB :=
  let date_key := strTake start_ts 10
  let dur : ℚ :=
    match end_ts with
    | some e => roundTo 4 (durationHours start_ts e)
    | none => 0
  { db with
      entries := db.entries.map (fun e2 =>
        if e2.id == entry_id then
          { e2 with start_ts := start_ts, end_ts := end_ts,
                    duration_h := dur, date_key := date_key }
        else e2) }

/-- `Storage.delete_entry`: `DELETE FROM entries WHERE id=?`. -/
def delete_entry (db : DB) (entry_id : Nat) : DB :=
  { db with entries := db.entries.filter (fun e => e.id != entry_id) }

/-- A joined row of `list_entries_for_date`: the entry columns plus
`t.name as task_name, t.w as task_w`. -/
structure EntryRow where
  entry : Entry
  task_name : String
  task_w : Bool
deriving DecidableEq

/-- The unsorted join of `list_entries_for_date`'s query. -/
def joinedRows (db : DB) (date_key : String) : List EntryRow :=
  (db.entries.filter (fun e => e.date_key == date_key)).filterMap
    (fun e => (db.tasks.find? (fun t => t.id == e.task_id)).map
      (fun t => ⟨e, t.name, t.w⟩))

/-- The `ORDER BY t.w DESC, t.name, e.start_ts` comparison. -/
def entryRowLeB (a b : EntryRow) : Bool :=
  if a.task_w = b.task_w then
    strLt a.task_name b.task_name ||
      (a.task_name == b.task_name && strLe a.entry.start_ts b.entry.start_ts)
  else a.task_w

/-- `Storage.list_entries_for_date`: joined rows for the date, ordered
by `t.w DESC, t.name, e.start_ts`. -/
def list_entries_for_date (db : DB) (date_key : String) : List EntryRow :=
  List.insertionSort (fun a b => entryRowLeB a b = true) (joinedRows db date_key)

/-- A row of the summary frame built by `export_date_to_df`. -/
structure SummaryRow where
  task : String
  hours : ℚ
deriving DecidableEq

/-- The rows `export_date_to_df` works on: the date's listing, kept as
is or filtered down to important tasks (`only_w`). -/
def exportRows (db : DB) (date_key : String) (only_w : Bool) : List EntryRow :=
  (list_entries_for_date db date_key).filter (fun r => !only_w || r.task_w)

/-- The per-task summary frame of `export_date_to_df`: one row per
task name (pandas `groupby` sorts names ascending) with summed
hours. -/
def exportSummary (db : DB) (date_key : String) (only_w : Bool) : List SummaryRow :=
  (List.insertionSort (fun a b => strLe a b = true)
      (((exportRows db date_key only_w).map (fun r => r.task_name)).dedup)).map
    (fun n => SummaryRow.mk n
      ((((exportRows db date_key only_w).filter (fun r => r.task_name == n)).map
        (fun r => r.entry.duration_h)).sum))

/-- `Storage.export_date_to_df`: `None` when no row survives the
optional importance filter; otherwise the summary frame plus a
trailing `Total` row. -/
def export_date_to_df (db : DB) (date_key : String) (only_w : Bool) :
    Option (List SummaryRow) :=
  if (exportRows db date_key only_w).isEmpty then none
  else
    some (exportSummary db date_key only_w ++
      [⟨"Total", ((exportSummary db date_key only_w).map (fun r => r.hours)).sum⟩])

end Storage

namespace OldStorage

/-- A row of the `tasks` table of `backups/time_tracker_old.py`. -/
structure Task where
  id : Nat
  name : String
  w : Bool
deriving DecidableEq

/-- A row of the `entries` table of `backups/time_tracker_old.py`,
which adds an `active` column. -/
structure Entry where
  id : Nat
  task_id : Nat
  start_ts : String
  end_ts : Option String
  duration_h : ℚ
  date_key : String
  active : Bool
deriving DecidableEq

/-- The old variant's database state. -/
structure DB where
  tasks : List Task
  entries : List Entry
  nextTaskId : Nat
  nextEntryId : Nat
deriving DecidableEq

/-- A freshly created database of the old variant. -/
def emptyDB : DB := ⟨[], [], 1, 1⟩

/-- Old `Storage.add_task`: inserts a trimmed name; on the
`UNIQUE(name)` violation returns the existing task's id. -/
def add_task (db : DB) (name : String) (w : Bool) : Nat × DB :=
  match db.tasks.find? (fun t => t.name == strTrim name) with
  | some t => (t.id, db)
  | none =>
      (db.nextTaskId,
        { db with
            tasks := db.tasks ++ [⟨db.nextTaskId, strTrim name, w⟩],
            nextTaskId := db.nextTaskId + 1 })

/-- Old `Storage.start_entry`: `start_ts` is the current time (`now`
here), `date_key` is the caller's argument when given, else
`start_ts[:10]`; the entry is inserted open with `active=1`. -/
def start_entry (db : DB) (task_id : Nat) (now : String) (date_key : Option String) :
    Nat × DB :=
  let dk := date_key.getD (strTake now 10)
  (db.nextEntryId,
    { db with
        entries := db.entries ++
          [⟨db.nextEntryId, task_id, now, none, 0, dk, true⟩],
        nextEntryId := db.nextEntryId + 1 })

/-- Old `Storage.stop_entry`: `False` when `entry_id` is falsy (`0`)
or absent; otherwise unconditionally writes `end_ts`,
`round(duration, 2)` and `active=0`. -/
def stop_entry (db : DB) (entry_id : Nat) (now : String) : Bool × DB :=
  if entry_id = 0 then (false, db)
  else
    match db.entries.find? (fun e => e.id == entry_id) with
    | none => (false, db)
    | some e =>
        let dur := roundTo 2 (durationHours e.start_ts now)
        (true,
          { db with
              entries := db.entries.map (fun e2 =>
                if e2.id == entry_id then
                  { e2 with end_ts := some now, duration_h := dur, active := false }
                else e2) })

/-- Old `Storage.update_entry`: overwrites start, end, the rounded
duration and `date_key = start.date().isoformat()`; no order
validation. -/
def update_entry (db : DB) (entry_id : Nat) (start_ts end_ts : String) : DB :=
  let dur := roundTo 2 (durationHours start_ts end_ts)
  { db with
      entries := db.entries.map (fun e2 =>
        if e2.id == entry_id then
          { e2 with start_ts := start_ts, end_ts := some end_ts,
                    duration_h := dur, date_key := dateOfTs start_ts }
        else e2) }

/-- Old `Storage.update_entry_time`: builds full timestamps on
`entry_date`, rejects a non-empty end time that is not strictly after
the start, and otherwise overwrites the row (open with duration `0`
when the end time is empty). -/
def update_entry_time (db : DB) (entry_id : Nat) (start_time end_time entry_date : String) :
    (Bool × String) × DB :=
  let start_ts := entry_date ++ "T" ++ start_time ++ ":00"
  if end_time ≠ "" then
    let end_ts := entry_date ++ "T" ++ end_time ++ ":00"
    if tsSeconds end_ts ≤ tsSeconds start_ts then
      ((false, "Время окончания должно быть позже времени начала"), db)
    else
      let dur := roundTo 2 (durationHours start_ts end_ts)
      ((true, "Время успешно обновлено"),
        { db with
            entries := db.entries.map (fun e2 =>
              if e2.id == entry_id then
                { e2 with start_ts := start_ts, end_ts := some end_ts,
                          duration_h := dur, date_key := entry_date }
              else e2) })
  else
    ((true, "Время успешно обновлено"),
      { db with
          entries := db.entries.map (fun e2 =>
            if e2.id == entry_id then
              { e2 with start_ts := start_ts, end_ts := none,
                        duration_h := 0, date_key := entry_date }
            else e2) })

/-- Old `Storage.add_empty_entry`: inserts a closed zero-length entry
whose start and end are both `date_key + "T00:00:00"`. -/
def add_empty_entry (db : DB) (task_id : Nat) (date_key : String) : DB :=
  { db with
      entries := db.entries ++
        [⟨db.nextEntryId, task_id, date_key ++ "T00:00:00",
          some (date_key ++ "T00:00:00"), 0, date_key, false⟩],
      nextEntryId := db.nextEntryId + 1 }

/-- Old `Storage.delete_entry`: `DELETE FROM entries WHERE id=?`. -/
def delete_entry (db : DB) (entry_id : Nat) : DB :=
  { db with entries := db.entries.filter (fun e => e.id != entry_id) }

/-- The entries of the date that belong to one task: the rows of one
`GROUP BY t.id` group of `get_daily_report`'s query. -/
def entriesFor (db : DB) (date_key : String) (task_id : Nat) : List Entry :=
  (db.entries.filter (fun e => e.date_key == date_key)).filter
    (fun e => e.task_id == task_id)

/-- A group row of `get_daily_report`. -/
structure ReportRow where
  task_name : String
  important : Bool
  total_hours : ℚ
  entries_count : Nat
deriving DecidableEq

/-- The report record `get_daily_report` returns. -/
structure Report where
  date : String
  tasks : List ReportRow
  total_hours : ℚ
  tasks_count : Nat
deriving DecidableEq

/-- The rank used by `ORDER BY t.w DESC`. -/
def wRank (b : Bool) : Nat := if b then 1 else 0

/-- The `ORDER BY t.w DESC, total_hours DESC` comparison on report
rows. -/
def reportRowLe (a b : ReportRow) : Prop :=
  wRank b.important < wRank a.important ∨
    (wRank a.important = wRank b.important ∧ b.total_hours ≤ a.total_hours)

instance : DecidableRel reportRowLe := fun a b => by
  unfold reportRowLe
  infer_instance

instance : IsTotal ReportRow reportRowLe := by
  constructor
  intro a b
  rcases lt_trichotomy (wRank a.important) (wRank b.important) with h | h | h
  · exact Or.inr (Or.inl h)
  · rcases le_total a.total_hours b.total_hours with h2 | h2
    · exact Or.inr (Or.inr ⟨h.symm, h2⟩)
    · exact Or.inl (Or.inr ⟨h, h2⟩)
  · exact Or.inl (Or.inl h)

instance : IsTrans ReportRow reportRowLe := by
  constructor
  intro a b c hab hbc
  rcases hab with h1 | ⟨h1, h1q⟩ <;> rcases hbc with h2 | ⟨h2, h2q⟩
  · exact Or.inl (h2.trans h1)
  · exact Or.inl (h2 ▸ h1)
  · exact Or.inl (h2.trans_eq h1.symm)
  · exact Or.inr ⟨h1.trans h2, h2q.trans h1q⟩

/-- Old `Storage.get_daily_report`: one row per task that has entries
on the date (`SUM(duration_h)`, `COUNT(id)`), ordered by
`t.w DESC, total_hours DESC`, together with the overall sum and the
number of groups. -/
def get_daily_report (db : DB) (date_key : String) : Report :=
  let rows := db.tasks.filterMap (fun t =>
    let es := entriesFor db date_key t.id
    if es.isEmpty then none
    else some (ReportRow.mk t.name t.w ((es.map (fun e => e.duration_h)).sum) es.length))
  let sorted := List.insertionSort reportRowLe rows
  ⟨date_key, sorted, ((sorted.map (fun r => r.total_hours)).sum), sorted.length⟩

/-- A joined row of the old `list_entries_for_date`. -/
structure EntryRow where
  entry : Entry
  task_name : String
  task_w : Bool
deriving DecidableEq

/-- The unsorted join of the old `list_entries_for_date` query. -/
def joinedRows (db : DB) (date_key : String) : List EntryRow :=
  (db.entries.filter (fun e => e.date_key == date_key)).filterMap
    (fun e => (db.tasks.find? (fun t => t.id == e.task_id)).map
      (fun t => ⟨e, t.name, t.w⟩))

/-- The old `ORDER BY t.w DESC, e.start_ts` comparison. -/
def entryRowLeB (a b : EntryRow) : Bool :=
  if a.task_w = b.task_w then strLe a.entry.start_ts b.entry.start_ts
  else a.task_w

/-- Old `Storage.list_entries_for_date`: joined rows for the date,
ordered by `t.w DESC, e.start_ts`. -/
def list_entries_for_date (db : DB) (date_key : String) : List EntryRow :=
  List.insertionSort (fun a b => entryRowLeB a b = true) (joinedRows db date_key)

/-- The store operations the specification's state-reachability talks
about, as a step-closed reachability predicate from a fresh database;
the timestamps a step takes stand for the wall-clock values
`datetime.now()` produces at that step. -/
inductive Reachable : DB → Prop
  | init : Reachable emptyDB
  | add_task {db} (name : String) (w : Bool) :
      Reachable db → Reachable (add_task db name w).2
  | start_entry {db} (task_id : Nat) (now : String) (date_key : Option String) :
      Reachable db → Reachable (start_entry db task_id now date_key).2
  | stop_entry {db} (entry_id : Nat) (now : String) :
      Reachable db → Reachable (stop_entry db entry_id now).2
  | update_entry {db} (entry_id : Nat) (start_ts end_ts : String) :
      Reachable db → Reachable (update_entry db entry_id start_ts end_ts)
  | update_entry_time {db} (entry_id : Nat) (start_time end_time entry_date : String) :
      Reachable db → Reachable (update_entry_time db entry_id start_time end_time entry_date).2
  | add_empty_entry {db} (task_id : Nat) (date_key : String) :
      Reachable db → Reachable (add_empty_entry db task_id date_key)
  | delete_entry {db} (entry_id : Nat) :
      Reachable db → Reachable (delete_entry db entry_id)

end OldStorage

/-- A store with one task `TaskX` and one open entry started at 9:00. -/
def dbOpen : Storage.DB :=
  (Storage.start_entry
    ((Storage.add_task Storage.emptyDB "TaskX" "General" false none).2)
    1 "2024-01-01T09:00:00").2

/-- `dbOpen` after the entry was stopped at 10:30 (so it is closed with
`duration_h = 1.5`). -/
def dbX : Storage.DB := (Storage.stop_entry dbOpen 1 "2024-01-01T10:30:00").2

/-- An old-variant store with one task `TaskX` and one open entry
started at 9:00. -/
def oldDbOpen : OldStorage.DB :=
  (OldStorage.start_entry
    ((OldStorage.add_task OldStorage.emptyDB "TaskX" false).2)
    1 "2024-01-01T09:00:00" none).2

/-- An old-variant store reached by adding a task and then an empty
entry: the entry is closed with `end_ts` equal to `start_ts`. -/
def oldDbEmptyEntry : OldStorage.DB :=
  OldStorage.add_empty_entry
    ((OldStorage.add_task OldStorage.emptyDB "TaskX" false).2) 1 "2024-01-01"

/-- An old-variant store with `TaskX` worked for 1.0 h and 1.5 h and
`TaskY` worked for 0.5 h, all on 2024-01-02. -/
def oldDbReport : OldStorage.DB :=
  (OldStorage.stop_entry
    (OldStorage.start_entry
      (OldStorage.stop_entry
        (OldStorage.start_entry
          (OldStorage.stop_entry
            (OldStorage.start_entry
              ((OldStorage.add_task
                ((OldStorage.add_task OldStorage.emptyDB "TaskX" false).2)
                "TaskY" false).2)
              1 "2024-01-02T09:00:00" none).2
            1 "2024-01-02T10:00:00").2
          1 "2024-01-02T11:00:00" none).2
        2 "2024-01-02T12:30:00").2
      2 "2024-01-02T13:00:00" none).2
    3 "2024-01-02T13:30:00").2

section Lemmas

/-- `find?` returns the unique element satisfying the predicate. -/
theorem find?_eq_of_unique {α : Type} (p : α → Bool) (l : List α) (a : α)
    (ha : a ∈ l) (hpa : p a = true) (huniq : ∀ x ∈ l, p x = true → x = a) :
    l.find? p = some a := by
  induction l with
  | nil => cases ha
  | cons b bs ih =>
      by_cases hb : p b = true
      · rw [List.find?_cons_of_pos _ hb]
        exact congrArg some (huniq b (List.mem_cons_self b bs) hb)
      · rw [List.find?_cons_of_neg _ hb]
        rcases List.mem_cons.mp ha with h | h
        · exact absurd (h ▸ hpa) hb
        · exact ih h (fun x hx hpx => huniq x (List.mem_cons_of_mem b hx) hpx)

end Lemmas

section MainClaims

attribute [local semireducible] Rat.add Rat.mul Rat.sub Rat.inv

/-- C2: the cascade the schema declares (`PRAGMA foreign_keys = ON`
plus `ON DELETE CASCADE`) fires only on the connection that created a
fresh database; `_ensure_db` on a pre-existing file never issues the
pragma and `backup` reopens without it, so there `remove_task` deletes
the task row but leaves its entry orphaned — with the pragma on, the
claimed cascade is exactly what happens. -/
theorem removeTask_orphans_on_reopened_connection :
    (Storage.ensure_db_existing dbX).fk_on = false ∧
    (Storage.backup ⟨dbX, true⟩).fk_on = false ∧
    (Storage.remove_task (Storage.ensure_db_existing dbX) 1).db.tasks = [] ∧
    (∃ e ∈ (Storage.remove_task (Storage.ensure_db_existing dbX) 1).db.entries,
      e.task_id = 1) ∧
    (Storage.remove_task ⟨dbX, true⟩ 1).db.entries = [] := by
  decide

/-- C5: when a task with the trimmed name already exists, `add_task`
returns the existing task's id and leaves the store (in particular the
set of task rows) unchanged. -/
theorem addTask_existing_name_idempotent
    (db : Storage.DB) (t : Storage.Task) (name category : String) (w : Bool)
    (color : Option String) (hmem : t ∈ db.tasks) (hname : t.name = strTrim name)
    (hnd : (db.tasks.map Storage.Task.name).Nodup) :
    Storage.add_task db name category w color = (t.id, db) := by
  have hfind : db.tasks.find? (fun t2 => t2.name == strTrim name) = some t := by
    apply find?_eq_of_unique _ _ _ hmem
    · simp [hname]
    · intro x hx hpx
      have hxname : x.name = strTrim name := by simpa using hpx
      exact List.inj_on_of_nodup_map hnd hx hmem (by rw [hxname, hname])
  simp [Storage.add_task, hfind]

/-- Witness for C5: re-adding `TaskX` returns id 1 and changes
nothing. -/
theorem addTask_existing_name_idempotent_witness :
    (⟨1, "TaskX", "General", false, none⟩ : Storage.Task) ∈ dbX.tasks ∧
    Storage.add_task dbX "TaskX" "Other" true none = (1, dbX) :=
  ⟨by decide,
    addTask_existing_name_idempotent dbX ⟨1, "TaskX", "General", false, none⟩
      "TaskX" "Other" true none (by decide) (by decide) (by decide)⟩

/-- C9 fails on the code: `add_task` performs no emptiness validation,
so a whitespace-only name is inserted as a task row whose name is the
empty string. -/
theorem addTask_empty_name_inserted :
    (Storage.add_task Storage.emptyDB "  " "General" false none).2.tasks
      = [⟨1, "", "General", false, none⟩] ∧
    (Storage.add_task Storage.emptyDB "  " "General" false none).2 ≠ Storage.emptyDB := by
  decide

/-- C9 amended: `add_task` never rejects an empty-after-trimming name;
when no empty-named task exists yet it inserts a new row whose name is
the empty string (the empty-name check lives only in the UI dialogs). -/
theorem addTask_empty_name_no_validation (db : Storage.DB) (name category : String)
    (w : Bool) (color : Option String) (hempty : strTrim name = "")
    (hnone : ∀ t ∈ db.tasks, t.name ≠ "") :
    (Storage.add_task db name category w color).2.tasks
      = db.tasks ++ [⟨db.nextTaskId, "", category, w, color⟩] := by
  have hfind : db.tasks.find? (fun t2 => t2.name == strTrim name) = none := by
    rw [List.find?_eq_none]
    intro x hx
    simp only [hempty, beq_iff_eq]
    exact fun h => hnone x hx h
  rw [hempty] at hfind
  simp [Storage.add_task, hfind, hempty]

/-- Witness for the amended C9 at the empty store. -/
theorem addTask_empty_name_no_validation_witness :
    strTrim "  " = "" ∧
    (Storage.add_task Storage.emptyDB "  " "General" false none).2.tasks
      = [⟨1, "", "General", false, none⟩] :=
  ⟨by decide,
    addTask_empty_name_no_validation Storage.emptyDB "  " "General" false none
      (by decide) (by decide)⟩

/-- C8 fails on the code: the old variant's `start_entry` stores an
explicitly passed `date_key` even when it differs from the date of the
entry's `start_ts` (the UI passes the selected calendar date while
`start_ts` is always the wall clock). -/
theorem startEntry_explicit_dateKey_mismatch :
    ∃ e ∈ (OldStorage.start_entry OldStorage.emptyDB 1 "2024-01-01T09:00:00"
        (some "2025-05-05")).2.entries,
      e.end_ts = none ∧ e.date_key ≠ strTake e.start_ts 10 := by
  decide

/-- C8 amended: every entry created by `start_entry` is open; in the
main variant its `date_key` is always the first ten characters of its
`start_ts`, and in the old variant this holds exactly when no explicit
`date_key` argument is passed. -/
theorem startEntry_open_and_dateKey (db : Storage.DB) (odb : OldStorage.DB)
    (task_id : Nat) (start_ts : String) :
    (Storage.start_entry db task_id start_ts).2.entries
      = db.entries ++ [⟨db.nextEntryId, task_id, start_ts, none, 0, "", strTake start_ts 10⟩] ∧
    (OldStorage.start_entry odb task_id start_ts none).2.entries
      = odb.entries ++ [⟨odb.nextEntryId, task_id, start_ts, none, 0, strTake start_ts 10, true⟩] :=
  ⟨rfl, rfl⟩

/-- C1 fails on the code: `stop_entry` never checks whether the entry
is already closed; re-stopping the closed 9:00–10:30 entry at 12:00
returns `True` and overwrites both `end_ts` and `duration_h`. -/
theorem stopEntry_closed_entry_restopped :
    dbX.entries
      = [⟨1, 1, "2024-01-01T09:00:00", some "2024-01-01T10:30:00", mkRat 3 2, "", "2024-01-01"⟩] ∧
    (Storage.stop_entry dbX 1 "2024-01-01T12:00:00").1 = true ∧
    (Storage.stop_entry dbX 1 "2024-01-01T12:00:00").2.entries
      = [⟨1, 1, "2024-01-01T09:00:00", some "2024-01-01T12:00:00", mkRat 3 1, "", "2024-01-01"⟩] := by
  decide

/-- C1 amended: `stop_entry` returns `False` and leaves the store
unchanged exactly when no entry has the requested id; any existing
entry — open or already closed — is overwritten and `True` is
returned. -/
theorem stopEntry_missing_id_fails (db : Storage.DB) (entry_id : Nat) (end_ts : String) :
    ((∀ e ∈ db.entries, e.id ≠ entry_id) →
      Storage.stop_entry db entry_id end_ts = (false, db)) ∧
    (∀ e ∈ db.entries, e.id = entry_id →
      (Storage.stop_entry db entry_id end_ts).1 = true) := by
  constructor
  · intro h
    have hfind : db.entries.find? (fun e => e.id == entry_id) = none := by
      rw [List.find?_eq_none]
      intro x hx
      simpa using h x hx
    simp [Storage.stop_entry, hfind]
  · intro e hmem hid
    cases hfind : db.entries.find? (fun e2 => e2.id == entry_id) with
    | none =>
        rw [List.find?_eq_none] at hfind
        exact absurd (by simpa using hid) (hfind e hmem)
    | some e2 => simp [Storage.stop_entry, hfind]

/-- Witness for the amended C1: stopping a missing id fails and leaves
the concrete store unchanged; stopping the present id succeeds. -/
theorem stopEntry_missing_id_fails_witness :
    Storage.stop_entry dbX 99 "2024-01-01T12:00:00" = (false, dbX) ∧
    (Storage.stop_entry dbX 1 "2024-01-01T12:00:00").1 = true :=
  ⟨(stopEntry_missing_id_fails dbX 99 "2024-01-01T12:00:00").1 (by decide),
    (stopEntry_missing_id_fails dbX 1 "2024-01-01T12:00:00").2
      ⟨1, 1, "2024-01-01T09:00:00", some "2024-01-01T10:30:00", mkRat 3 2, "", "2024-01-01"⟩
      (by decide) (by decide)⟩

/-- C4 fails on the code: the main variant's `update_entry` performs no
`newEnd > newStart` validation; an update whose end precedes its start
succeeds and rewrites the entry with a negative `duration_h`. -/
theorem updateEntry_accepts_end_before_start :
    tsSeconds "2024-01-01T09:00:00" ≤ tsSeconds "2024-01-01T10:00:00" ∧
    (Storage.update_entry dbX 1 "2024-01-01T10:00:00" (some "2024-01-01T09:00:00")).entries
      = [⟨1, 1, "2024-01-01T10:00:00", some "2024-01-01T09:00:00", mkRat (-1) 1, "", "2024-01-01"⟩] ∧
    Storage.update_entry dbX 1 "2024-01-01T10:00:00" (some "2024-01-01T09:00:00") ≠ dbX := by
  decide

/-- C4 amended: only the old variant's `update_entry_time` validates:
with a non-empty end time not strictly after the start time it returns
`(False, message)` and leaves the store completely unchanged, while
the main variant's `update_entry` applies such an update (see the
counterexample). -/
theorem update_entry_time_rejects_end_le_start
    (db : OldStorage.DB) (entry_id : Nat) (start_time end_time entry_date : String)
    (hne : end_time ≠ "")
    (hle : tsSeconds (entry_date ++ "T" ++ end_time ++ ":00")
      ≤ tsSeconds (entry_date ++ "T" ++ start_time ++ ":00")) :
    OldStorage.update_entry_time db entry_id start_time end_time entry_date
      = ((false, "Время окончания должно быть позже времени начала"), db) := by
  simp [OldStorage.update_entry_time, hne, hle]

/-- Witness for the amended C4 at a concrete store with one entry. -/
theorem update_entry_time_rejects_end_le_start_witness :
    ("09:30" : String) ≠ "" ∧
    tsSeconds "2024-01-01T09:30:00" ≤ tsSeconds "2024-01-01T10:00:00" ∧
    OldStorage.update_entry_time oldDbOpen 1 "10:00" "09:30" "2024-01-01"
      = ((false, "Время окончания должно быть позже времени начала"), oldDbOpen) :=
  ⟨by decide, by decide,
    update_entry_time_rejects_end_le_start oldDbOpen 1 "10:00" "09:30" "2024-01-01"
      (by decide) (by decide)⟩

/-- C7: an entry closed by `stop_entry` gets
`duration_h = round((end - start) in seconds / 3600, p)` with `p = 4`
in the main variant and `p = 2` in the old variant, keeping its start
and recording the given end. -/
theorem stopEntry_duration_rounded
    (db : Storage.DB) (odb : OldStorage.DB) (entry_id : Nat) (end_ts : String)
    (e : Storage.Entry) (oe : OldStorage.Entry)
    (hf : db.entries.find? (fun e2 => e2.id == entry_id) = some e)
    (hof : odb.entries.find? (fun e2 => e2.id == entry_id) = some oe)
    (hne0 : entry_id ≠ 0) :
    (∃ e2 ∈ (Storage.stop_entry db entry_id end_ts).2.entries,
        e2.id = e.id ∧ e2.start_ts = e.start_ts ∧ e2.end_ts = some end_ts ∧
        e2.duration_h = roundTo 4 (durationHours e.start_ts end_ts)) ∧
    (∃ e2 ∈ (OldStorage.stop_entry odb entry_id end_ts).2.entries,
        e2.id = oe.id ∧ e2.start_ts = oe.start_ts ∧ e2.end_ts = some end_ts ∧
        e2.duration_h = roundTo 2 (durationHours oe.start_ts end_ts)) := by
  constructor
  · have hmem := List.mem_of_find?_eq_some hf
    have hpe := List.find?_some hf
    refine ⟨{ e with end_ts := some end_ts, duration_h := roundTo 4 (durationHours e.start_ts end_ts) }, ?_, rfl, rfl, rfl, rfl⟩
    simp only [Storage.stop_entry, hf]
    exact List.mem_map.mpr ⟨e, hmem, by simp only [hpe, if_pos]⟩
  · have hmem := List.mem_of_find?_eq_some hof
    have hpe := List.find?_some hof
    refine ⟨{ oe with end_ts := some end_ts, duration_h := roundTo 2 (durationHours oe.start_ts end_ts), active := false }, ?_, rfl, rfl, rfl, rfl⟩
    simp only [OldStorage.stop_entry, hof, if_neg hne0]
    exact List.mem_map.mpr ⟨oe, hmem, by simp only [hpe, if_pos]⟩

/-- Witness for C7: stopping the 9:00 entry at 10:30 stores exactly
1.5 hours in both variants. -/
theorem stopEntry_duration_rounded_witness :
    dbOpen.entries.find? (fun e2 => e2.id == 1)
      = some ⟨1, 1, "2024-01-01T09:00:00", none, 0, "", "2024-01-01"⟩ ∧
    oldDbOpen.entries.find? (fun e2 => e2.id == 1)
      = some ⟨1, 1, "2024-01-01T09:00:00", none, 0, "2024-01-01", true⟩ ∧
    roundTo 4 (durationHours "2024-01-01T09:00:00" "2024-01-01T10:30:00") = mkRat 3 2 ∧
    roundTo 2 (durationHours "2024-01-01T09:00:00" "2024-01-01T10:30:00") = mkRat 3 2 ∧
    ((∃ e2 ∈ (Storage.stop_entry dbOpen 1 "2024-01-01T10:30:00").2.entries,
        e2.id = 1 ∧ e2.start_ts = "2024-01-01T09:00:00" ∧
        e2.end_ts = some "2024-01-01T10:30:00" ∧
        e2.duration_h = roundTo 4 (durationHours "2024-01-01T09:00:00" "2024-01-01T10:30:00")) ∧
     (∃ e2 ∈ (OldStorage.stop_entry oldDbOpen 1 "2024-01-01T10:30:00").2.entries,
        e2.id = 1 ∧ e2.start_ts = "2024-01-01T09:00:00" ∧
        e2.end_ts = some "2024-01-01T10:30:00" ∧
        e2.duration_h = roundTo 2 (durationHours "2024-01-01T09:00:00" "2024-01-01T10:30:00"))) :=
  ⟨by decide, by decide, by decide, by decide,
    stopEntry_duration_rounded dbOpen oldDbOpen 1 "2024-01-01T10:30:00"
      ⟨1, 1, "2024-01-01T09:00:00", none, 0, "", "2024-01-01"⟩
      ⟨1, 1, "2024-01-01T09:00:00", none, 0, "2024-01-01", true⟩
      (by decide) (by decide) (by decide)⟩

/-- C10: `export_date_to_df` returns `None` exactly when no row of the
date's listing survives the importance filter (in particular when the
date has no entries at all, or, with the default `only_w=True`, none
belonging to an important task); otherwise it returns the non-empty
per-task summary followed by a single trailing `Total` row. -/
theorem export_none_iff_no_rows (db : Storage.DB) (date_key : String) (only_w : Bool) :
    (Storage.export_date_to_df db date_key only_w = none ↔
      Storage.exportRows db date_key only_w = []) ∧
    (∀ out, Storage.export_date_to_df db date_key only_w = some out →
      Storage.exportSummary db date_key only_w ≠ [] ∧
      out = Storage.exportSummary db date_key only_w ++
        [⟨"Total", ((Storage.exportSummary db date_key only_w).map (fun r => r.hours)).sum⟩]) := by
  cases hE : (Storage.exportRows db date_key only_w).isEmpty with
  | true =>
      have hnil : Storage.exportRows db date_key only_w = [] := List.isEmpty_iff.mp hE
      constructor
      · simp [Storage.export_date_to_df, hE, hnil]
      · intro out hout
        simp [Storage.export_date_to_df, hE] at hout
  | false =>
      have hnil : Storage.exportRows db date_key only_w ≠ [] := by
        intro h
        rw [h] at hE
        simp at hE
      constructor
      · constructor
        · intro hnone
          simp [Storage.export_date_to_df, hE] at hnone
        · intro h
          exact absurd h hnil
      · intro out hout
        have hsum : Storage.exportSummary db date_key only_w ≠ [] := by
          intro hs
          have hlen := congrArg List.length hs
          rw [Storage.exportSummary, List.length_map,
            (List.perm_insertionSort _ _).length_eq] at hlen
          have hdn : ((Storage.exportRows db date_key only_w).map
              (fun r => r.task_name)).dedup = [] := List.length_eq_zero.mp hlen
          exact hnil (List.map_eq_nil_iff.mp ((List.dedup_eq_nil _).mp hdn))
        refine ⟨hsum, ?_⟩
        simp only [Storage.export_date_to_df, hE, Bool.false_eq_true, if_false,
          Option.some.injEq] at hout
        exact hout.symm

/-- Witness for C10: on the concrete store the unimportant task is
filtered away under `only_w`, so the export is `None`; without the
filter a summary with a `Total` row is produced. -/
theorem export_none_iff_no_rows_witness :
    Storage.export_date_to_df dbX "2024-01-01" true = none ∧
    Storage.export_date_to_df dbX "2024-01-01" false
      = some [⟨"TaskX", mkRat 3 2⟩, ⟨"Total", mkRat 3 2⟩] :=
  ⟨(export_none_iff_no_rows dbX "2024-01-01" true).1.mpr (by decide), by decide⟩

/-- `add_task` never touches the entries table. -/
theorem oldAddTask_entries (db : OldStorage.DB) (name : String) (w : Bool) :
    (OldStorage.add_task db name w).2.entries = db.entries := by
  unfold OldStorage.add_task
  cases db.tasks.find? (fun t => t.name == strTrim name) <;> rfl

/-- C3 fails on the code: a state reached through the public store
operations can hold a closed entry whose `end_ts` does not lie
strictly after its `start_ts` — `add_empty_entry` stores
`end_ts = start_ts = date_key + "T00:00:00"`. -/
theorem reachable_closed_entry_not_strict :
    OldStorage.Reachable oldDbEmptyEntry ∧
    ∃ e ∈ oldDbEmptyEntry.entries, ∃ s, e.end_ts = some s ∧
      ¬ tsSeconds e.start_ts < tsSeconds s :=
  ⟨OldStorage.Reachable.add_empty_entry 1 "2024-01-01"
      (OldStorage.Reachable.add_task "TaskX" false OldStorage.Reachable.init),
    ⟨⟨1, 1, "2024-01-01T00:00:00", some "2024-01-01T00:00:00", 0, "2024-01-01", false⟩,
      by decide, "2024-01-01T00:00:00", by decide, by decide⟩⟩

/-- C3 amended: in every state reachable through the public store
operations every open entry (no `end_ts`) carries `duration_h = 0`;
the strict `end_ts > start_ts` bound and `duration_h ≥ 0` do not hold
for closed entries (see the counterexample, and the C4 counterexample
for a negative persisted duration). -/
theorem reachable_open_entry_duration_zero (db : OldStorage.DB)
    (h : OldStorage.Reachable db) :
    ∀ e ∈ db.entries, e.end_ts = none → e.duration_h = 0 := by
  induction h with
  | init =>
      intro e he
      cases he
  | add_task name w hdb ih =>
      rw [oldAddTask_entries]
      exact ih
  | start_entry task_id now date_key hdb ih =>
      intro e he hopen
      simp only [OldStorage.start_entry] at he
      rcases List.mem_append.mp he with h1 | h1
      · exact ih e h1 hopen
      · rw [List.mem_singleton.mp h1]
  | stop_entry entry_id now hdb ih =>
      intro e he hopen
      rw [OldStorage.stop_entry] at he
      split at he
      · exact ih e he hopen
      · split at he
        · exact ih e he hopen
        · obtain ⟨e0, he0, hfe⟩ := List.mem_map.mp he
          split at hfe
          · subst hfe
            simp at hopen
          · subst hfe
            exact ih e0 he0 hopen
  | update_entry entry_id start_ts end_ts hdb ih =>
      intro e he hopen
      simp only [OldStorage.update_entry] at he
      obtain ⟨e0, he0, hfe⟩ := List.mem_map.mp he
      by_cases hid : (e0.id == entry_id) = true
      · rw [if_pos hid] at hfe
        rw [← hfe] at hopen
        cases hopen
      · rw [if_neg hid] at hfe
        exact hfe ▸ ih e0 he0 (hfe ▸ hopen)
  | update_entry_time entry_id start_time end_time entry_date hdb ih =>
      intro e he hopen
      by_cases hne : end_time ≠ ""
      · rw [OldStorage.update_entry_time] at he
        rw [if_pos hne] at he
        by_cases hle : tsSeconds (entry_date ++ "T" ++ end_time ++ ":00")
            ≤ tsSeconds (entry_date ++ "T" ++ start_time ++ ":00")
        · rw [if_pos hle] at he
          exact ih e he hopen
        · rw [if_neg hle] at he
          simp only at he
          obtain ⟨e0, he0, hfe⟩ := List.mem_map.mp he
          by_cases hid : (e0.id == entry_id) = true
          · rw [if_pos hid] at hfe
            rw [← hfe] at hopen
            cases hopen
          · rw [if_neg hid] at hfe
            exact hfe ▸ ih e0 he0 (hfe ▸ hopen)
      · rw [OldStorage.update_entry_time, if_neg hne] at he
        simp only at he
        obtain ⟨e0, he0, hfe⟩ := List.mem_map.mp he
        by_cases hid : (e0.id == entry_id) = true
        · rw [if_pos hid] at hfe
          rw [← hfe]
        · rw [if_neg hid] at hfe
          exact hfe ▸ ih e0 he0 (hfe ▸ hopen)
  | add_empty_entry task_id date_key hdb ih =>
      intro e he hopen
      simp only [OldStorage.add_empty_entry] at he
      rcases List.mem_append.mp he with h1 | h1
      · exact ih e h1 hopen
      · rw [List.mem_singleton.mp h1] at hopen
        cases hopen
  | delete_entry entry_id hdb ih =>
      intro e he hopen
      simp only [OldStorage.delete_entry] at he
      exact ih e (List.mem_filter.mp he).1 hopen

/-- Witness for the amended C3 at a concrete reachable store with one
open entry. -/
theorem reachable_open_entry_duration_zero_witness :
    OldStorage.Reachable oldDbOpen ∧
    (⟨1, 1, "2024-01-01T09:00:00", none, 0, "2024-01-01", true⟩ : OldStorage.Entry)
        ∈ oldDbOpen.entries ∧
    (⟨1, 1, "2024-01-01T09:00:00", none, 0, "2024-01-01", true⟩ : OldStorage.Entry).duration_h = 0 := by
  have hreach : OldStorage.Reachable oldDbOpen :=
    OldStorage.Reachable.start_entry 1 "2024-01-01T09:00:00" none
      (OldStorage.Reachable.add_task "TaskX" false OldStorage.Reachable.init)
  refine ⟨hreach, by decide, ?_⟩
  exact reachable_open_entry_duration_zero oldDbOpen hreach
    ⟨1, 1, "2024-01-01T09:00:00", none, 0, "2024-01-01", true⟩ (by decide) rfl

/-- With unique task ids, looking a member task up by its id finds
exactly it. -/
theorem old_find_task (db : OldStorage.DB) (t : OldStorage.Task) (ht : t ∈ db.tasks)
    (hid : (db.tasks.map OldStorage.Task.id).Nodup) :
    db.tasks.find? (fun t2 => t2.id == t.id) = some t := by
  apply find?_eq_of_unique _ _ _ ht
  · simp
  · intro x hx hpx
    exact List.inj_on_of_nodup_map hid hx ht (by simpa using hpx)

/-- Restricting the task join to one task's id yields exactly that
task's entries, each joined with that task. -/
theorem joined_filter_task (tasks : List OldStorage.Task) (t : OldStorage.Task)
    (hfind : tasks.find? (fun t2 => t2.id == t.id) = some t)
    (es : List OldStorage.Entry) :
    (es.filterMap (fun e => (tasks.find? (fun t2 => t2.id == e.task_id)).map
        (fun t2 => OldStorage.EntryRow.mk e t2.name t2.w))).filter
      (fun r => r.entry.task_id == t.id)
      = (es.filter (fun e => e.task_id == t.id)).map
        (fun e => OldStorage.EntryRow.mk e t.name t.w) := by
  induction es with
  | nil => rfl
  | cons e es ih =>
      by_cases he : (e.task_id == t.id) = true
      · have heq : e.task_id = t.id := by simpa using he
        simp only [List.filterMap_cons, heq, hfind, Option.map_some', List.filter_cons]
        simp [ih]
      · cases hf : tasks.find? (fun t2 => t2.id == e.task_id) with
        | none => simp [List.filterMap_cons, hf, List.filter_cons, he, ih]
        | some t2 => simp [List.filterMap_cons, hf, List.filter_cons, he, ih]

/-- The per-task slice of the date's listing has the same duration sum
and the same size as the task's group of entries. -/
theorem listEntries_group_stats (db : OldStorage.DB) (date_key : String)
    (t : OldStorage.Task) (ht : t ∈ db.tasks)
    (hid : (db.tasks.map OldStorage.Task.id).Nodup) :
    (((OldStorage.list_entries_for_date db date_key).filter
        (fun r => r.entry.task_id == t.id)).map (fun r => r.entry.duration_h)).sum
      = ((OldStorage.entriesFor db date_key t.id).map (fun e => e.duration_h)).sum ∧
    ((OldStorage.list_entries_for_date db date_key).filter
        (fun r => r.entry.task_id == t.id)).length
      = (OldStorage.entriesFor db date_key t.id).length := by
  have hfind := old_find_task db t ht hid
  have hfil2 : List.Perm
      ((OldStorage.list_entries_for_date db date_key).filter
        (fun r => r.entry.task_id == t.id))
      ((OldStorage.entriesFor db date_key t.id).map
        (fun e => OldStorage.EntryRow.mk e t.name t.w)) := by
    have hp := (List.perm_insertionSort
      (fun a b => OldStorage.entryRowLeB a b = true)
      (OldStorage.joinedRows db date_key)).filter (fun r => r.entry.task_id == t.id)
    rw [OldStorage.joinedRows,
      joined_filter_task db.tasks t hfind
        (db.entries.filter (fun e => e.date_key == date_key))] at hp
    exact hp
  constructor
  · have hm := (hfil2.map (fun r => r.entry.duration_h)).sum_eq
    rw [List.map_map] at hm
    simpa [Function.comp] using hm
  · rw [hfil2.length_eq, List.length_map]

/-- C6: `get_daily_report` groups the date's listing by task: every
report row belongs to a stored task and carries that task's name and
importance, the sum of the `duration_h` of its slice of
`list_entries_for_date` and the size of that slice (which is
positive); rows are ordered by importance descending then total hours
descending; the report's `total_hours` is the sum over its rows and
`tasks_count` is the number of rows. -/
theorem dailyReport_aggregation (db : OldStorage.DB) (date_key : String)
    (hid : (db.tasks.map OldStorage.Task.id).Nodup) :
    (∀ row ∈ (OldStorage.get_daily_report db date_key).tasks,
      ∃ t ∈ db.tasks, row.task_name = t.name ∧ row.important = t.w ∧
        row.total_hours = (((OldStorage.list_entries_for_date db date_key).filter
            (fun r => r.entry.task_id == t.id)).map (fun r => r.entry.duration_h)).sum ∧
        row.entries_count = ((OldStorage.list_entries_for_date db date_key).filter
            (fun r => r.entry.task_id == t.id)).length ∧
        0 < row.entries_count) ∧
    List.Sorted OldStorage.reportRowLe (OldStorage.get_daily_report db date_key).tasks ∧
    (OldStorage.get_daily_report db date_key).total_hours
      = ((OldStorage.get_daily_report db date_key).tasks.map (fun r => r.total_hours)).sum ∧
    (OldStorage.get_daily_report db date_key).tasks_count
      = (OldStorage.get_daily_report db date_key).tasks.length := by
  refine ⟨?_, ?_, rfl, rfl⟩
  · intro row hrow
    have hrow2 : row ∈ db.tasks.filterMap (fun t =>
        if (OldStorage.entriesFor db date_key t.id).isEmpty then none
        else some (OldStorage.ReportRow.mk t.name t.w
          (((OldStorage.entriesFor db date_key t.id).map (fun e => e.duration_h)).sum)
          (OldStorage.entriesFor db date_key t.id).length)) := by
      have hperm := List.perm_insertionSort OldStorage.reportRowLe
        (db.tasks.filterMap (fun t =>
          if (OldStorage.entriesFor db date_key t.id).isEmpty then none
          else some (OldStorage.ReportRow.mk t.name t.w
            (((OldStorage.entriesFor db date_key t.id).map (fun e => e.duration_h)).sum)
            (OldStorage.entriesFor db date_key t.id).length)))
      exact hperm.mem_iff.mp hrow
    obtain ⟨t, ht, hg⟩ := List.mem_filterMap.mp hrow2
    by_cases hE : (OldStorage.entriesFor db date_key t.id).isEmpty
    · rw [if_pos hE] at hg
      cases hg
    · rw [if_neg hE] at hg
      obtain ⟨hsum, hlen⟩ := listEntries_group_stats db date_key t ht hid
      refine ⟨t, ht, ?_, ?_, ?_, ?_, ?_⟩
      · rw [← Option.some_inj.mp hg]
      · rw [← Option.some_inj.mp hg]
      · rw [← Option.some_inj.mp hg]
        exact hsum.symm
      · rw [← Option.some_inj.mp hg]
        exact hlen.symm
      · rw [← Option.some_inj.mp hg]
        have hne : OldStorage.entriesFor db date_key t.id ≠ [] := by
          intro h
          rw [h] at hE
          simp at hE
        exact List.length_pos.mpr hne
  · exact List.sorted_insertionSort OldStorage.reportRowLe _

/-- Witness for C6: two `TaskX` entries of 1.0 h and 1.5 h and one
`TaskY` entry of 0.5 h on one date give totals 2.5 and 0.5, a grand
total of 3.0 and two groups, ordered `TaskX` before `TaskY`. -/
theorem dailyReport_aggregation_witness :
    (oldDbReport.tasks.map OldStorage.Task.id).Nodup ∧
    List.Sorted OldStorage.reportRowLe
      (OldStorage.get_daily_report oldDbReport "2024-01-02").tasks ∧
    OldStorage.get_daily_report oldDbReport "2024-01-02"
      = ⟨"2024-01-02",
          [⟨"TaskX", false, mkRat 5 2, 2⟩, ⟨"TaskY", false, mkRat 1 2, 1⟩],
          mkRat 3 1, 2⟩ :=
  ⟨by decide,
    (dailyReport_aggregation oldDbReport "2024-01-02" (by decide)).2.1,
    by decide⟩

end MainClaims
